import Mathlib

/-!
# Verification of the Discord whitelist message-filtering core

Shallow embedding of the message-filtering userscript:
- the DOM fragment of a message is modelled as a tree of elements carrying
  a class list, direct text content, and inline styles;
- `FilterEngine.extractUsername`, `applyDisplayMode`, `filterMessage`,
  `processMessages`, `refreshAllMessages`, `shutdown` and the observer
  timer bookkeeping are translated from the engine source
  (`src/unnamed/part_002`, the v0.4.0 userscript);
- `WhitelistManager.isWhitelisted` / `WhitelistCollection.addEntry` /
  `rebuildLookupCache` are translated from `src/whitelist.js`.

JavaScript `Map`s become association lists with first-key-wins lookup,
`setTimeout` handles become entries of an explicit pending-timer list
(`clearTimeout` removes the entry), and the fallible collaborator call
`whitelist.isWhitelisted` is given an `Except`-valued oracle so that the
`try`/`catch` boundary of `filterMessage` can be expressed.
-/

set_option linter.unusedVariables false

namespace DiscordWhitelist

/-- Character-list version of "starts with": helper for the substring test. -/
def startsWithChars : List Char → List Char → Bool
  | [], _ => true
  | _ :: _, [] => false
  | a :: as, b :: bs => a == b && startsWithChars as bs

/-- Character-list substring containment. -/
def containsChars (sub : List Char) : List Char → Bool
  | [] => startsWithChars sub []
  | b :: bs => startsWithChars sub (b :: bs) || containsChars sub bs

/-- `strContains s sub` models JavaScript `s.includes(sub)`; it is the test
performed by the CSS attribute selector `[class*=sub]` on the serialized
class attribute `s`. -/
def strContains (s sub : String) : Bool := containsChars sub.data s.data

/-- Drop leading whitespace characters. -/
def dropLeadingWs : List Char → List Char
  | [] => []
  | c :: cs => if c.isWhitespace then dropLeadingWs cs else c :: cs

/-- JavaScript `String.prototype.trim`: strip whitespace from both ends
(kernel-reducible replacement for `String.trim`). -/
def sTrim (s : String) : String :=
  ⟨(dropLeadingWs (dropLeadingWs s.data).reverse).reverse⟩

/-- JavaScript `String.prototype.toLowerCase`, per character
(kernel-reducible replacement for `String.map Char.toLower`). -/
def sLower (s : String) : String := ⟨s.data.map Char.toLower⟩

/-- Serialized class attribute: the tokens joined by single spaces
(`String.intercalate " "`). -/
def classAttr : List String → String
  | [] => ""
  | [c] => c
  | c :: rest => c ++ " " ++ classAttr rest

/-- The inline styles touched by the engine (`element.style.*`).  An empty
string is the reset value (`element.style.x = ""`). -/
structure ElemStyle where
  opacity : String := ""
  display : String := ""
  cssFilter : String := ""
  pointerEvents : String := ""
  userSelect : String := ""
deriving Repr, DecidableEq

/-- A DOM element inside a message subtree: class tokens, the text held
directly by the element (its direct text-node children, concatenated),
inline styles and child elements. -/
inductive Dom where
  | node (classes : List String) (text : String) (style : ElemStyle) (children : List Dom)
deriving Repr

/-- Class token list of an element. -/
def Dom.classes : Dom → List String
  | .node c _ _ _ => c

/-- Direct text of an element. -/
def Dom.text : Dom → String
  | .node _ t _ _ => t

/-- Inline style record of an element. -/
def Dom.style : Dom → ElemStyle
  | .node _ _ s _ => s

/-- Child elements of an element. -/
def Dom.children : Dom → List Dom
  | .node _ _ _ cs => cs

mutual
/-- `element.textContent`: the direct text followed by the text of the
descendants, in document order. -/
def textContent : Dom → String
  | .node _ t _ cs => t ++ textContentList cs
/-- `textContent` over a forest. -/
def textContentList : List Dom → String
  | [] => ""
  | d :: ds => textContent d ++ textContentList ds
end

mutual
/-- All elements of a subtree satisfying `p`, in document (preorder)
order: models `root.querySelectorAll(sel)` restricted to one subtree. -/
def collectFrom (p : Dom → Bool) : Dom → List Dom
  | .node c t s cs =>
    (if p (.node c t s cs) then [Dom.node c t s cs] else []) ++ collectAll p cs
/-- `collectFrom` over a forest of sibling subtrees. -/
def collectAll (p : Dom → Bool) : List Dom → List Dom
  | [] => []
  | d :: ds => collectFrom p d ++ collectAll p ds
end

mutual
/-- First element of a subtree satisfying `p`, in document order:
models `root.querySelector(sel)` for a simple selector. -/
def findFrom (p : Dom → Bool) : Dom → Option Dom
  | .node c t s cs =>
    if p (.node c t s cs) then some (.node c t s cs) else findInChildren p cs
/-- `findFrom` over a forest of sibling subtrees. -/
def findInChildren (p : Dom → Bool) : List Dom → Option Dom
  | [] => none
  | d :: ds =>
    match findFrom p d with
    | some r => some r
    | none => findInChildren p ds
end

mutual
/-- First element in document order satisfying `pb` that has an ancestor
satisfying `pa` (`anc` records whether such an ancestor was already seen
above the current position): models the descendant combinator `A B` of
`querySelector`. -/
def findWithAncFrom (pa pb : Dom → Bool) (anc : Bool) : Dom → Option Dom
  | .node c t s cs =>
    if anc && pb (.node c t s cs) then some (.node c t s cs)
    else findWithAncList pa pb (anc || pa (.node c t s cs)) cs
/-- `findWithAncFrom` over a forest of sibling subtrees. -/
def findWithAncList (pa pb : Dom → Bool) (anc : Bool) : List Dom → Option Dom
  | [] => none
  | d :: ds =>
    match findWithAncFrom pa pb anc d with
    | some r => some r
    | none => findWithAncList pa pb anc ds
end

/-- A rendered message container (the `li` node handed to the engine):
host-assigned id, class tokens, inline styles, layout height
(`offsetHeight`, supplied by the host) and the child subtree. -/
structure MsgElem where
  id : String
  classes : List String
  style : ElemStyle
  offsetHeight : Nat
  children : List Dom
deriving Repr

/-- `[class*=sub]` test on one element. -/
def hasClassContaining (sub : String) (d : Dom) : Bool :=
  strContains (classAttr d.classes) sub

/-- `.tok` class-token test on one element. -/
def hasClassToken (tok : String) (d : Dom) : Bool := d.classes.contains tok

/-- `messageElement.querySelector('[class*="username"]')`
(the `MESSAGE_SELECTORS.authorElement` selector). -/
def querySelUsername (m : MsgElem) : Option Dom :=
  findInChildren (hasClassContaining "username") m.children

/-- `messageElement.querySelector('[class*=outer] [class*=inner]')`:
the message element itself is a possible ancestor for the outer part. -/
def querySelDesc (outer inner : String) (m : MsgElem) : Option Dom :=
  findWithAncList (hasClassContaining outer) (hasClassContaining inner)
    (strContains (classAttr m.classes) outer) m.children

/-- `MESSAGE_SELECTORS.replyAuthor`:
`[class*="repliedTextPreview"] [class*="username"]`. -/
def querySelReplyAuthor (m : MsgElem) : Option Dom :=
  querySelDesc "repliedTextPreview" "username" m

/-- Selector `[class*="headerText"] [class*="username"]`. -/
def querySelHeaderTextUsername (m : MsgElem) : Option Dom :=
  querySelDesc "headerText" "username" m

/-- Selector `[class*="header"] [class*="username"]`. -/
def querySelHeaderUsername (m : MsgElem) : Option Dom :=
  querySelDesc "header" "username" m

/-- One iteration of the selector loop of `extractUsername`: the found
element must have non-empty `textContent` and a non-empty trimmed text,
which is then returned. -/
def selectorUsername (o : Option Dom) : Option String :=
  match o with
  | none => none
  | some el =>
    if textContent el == "" then none
    else if sTrim (textContent el) == "" then none
    else some (sTrim (textContent el))

/-- The fallback loop of `extractUsername` over
`querySelectorAll('[class*="username"]')`: first non-empty trimmed text of
at most 32 characters wins; longer texts are skipped. -/
def fallbackUsername : List Dom → Option String
  | [] => none
  | el :: rest =>
    let t := sTrim (textContent el)
    if t != "" && t.length ≤ 32 then some t else fallbackUsername rest

/-- `FilterEngine.extractUsername` (src/unnamed/part_002, lines
1055-1089): the four selectors are tried in order, first hit with a
non-empty trimmed text wins; then the broadened username-class scan with
the 32-character bound; otherwise `null`. -/
def extractUsername (m : MsgElem) : Option String :=
  match selectorUsername (querySelUsername m) with
  | some u => some u
  | none =>
  match selectorUsername (querySelReplyAuthor m) with
  | some u => some u
  | none =>
  match selectorUsername (querySelHeaderTextUsername m) with
  | some u => some u
  | none =>
  match selectorUsername (querySelHeaderUsername m) with
  | some u => some u
  | none => fallbackUsername (collectAll (hasClassContaining "username") m.children)

/-- The four `FILTER_CLASSES` values of the source. -/
def FILTER_CLASSES : List String :=
  ["wl-hidden", "wl-collapsed", "wl-placeholder", "wl-filtered-indicator"]

/-- Whether a class token is one of the engine filter classes. -/
def isFilterClass (c : String) : Bool := FILTER_CLASSES.contains c

/-- `classList.add`: appends the token unless already present. -/
def addClass (cs : List String) (c : String) : List String :=
  if cs.contains c then cs else cs ++ [c]

mutual
/-- Style reset performed by `removeFilterClasses` on every child
(`opacity`, `display`, `filter`, `pointerEvents`, `userSelect` all set
to the empty string) together with `classList.remove('wl-filtered-child')`. -/
def clearChildStyles : Dom → Dom
  | .node c t _ cs =>
    .node (c.filter (fun x => x ≠ "wl-filtered-child")) t {} (clearChildStylesList cs)
/-- `clearChildStyles` over a forest. -/
def clearChildStylesList : List Dom → List Dom
  | [] => []
  | d :: ds => clearChildStyles d :: clearChildStylesList ds
end

mutual
/-- Remove the first element (with its subtree) satisfying `p` from a
forest, document order; returns the new forest and whether a removal
happened.  Models `querySelector(sel).remove()`. -/
def removeFirstInList (p : Dom → Bool) : List Dom → List Dom × Bool
  | [] => ([], false)
  | d :: ds =>
    if p d then (ds, true)
    else
      match removeFirstFrom p d with
      | (d2, true) => (d2 :: ds, true)
      | (d2, false) =>
        let r := removeFirstInList p ds
        (d2 :: r.1, r.2)
/-- `removeFirstInList` inside the children of one node. -/
def removeFirstFrom (p : Dom → Bool) : Dom → Dom × Bool
  | .node c t s cs =>
    let r := removeFirstInList p cs
    (.node c t s r.1, r.2)
end

/-- `FilterEngine.removeFilterClasses` (src/unnamed/part_002, lines
1309-1337): drops the four filter classes from the message element,
removes the `.wl-placeholder` child, resets the inline `opacity` of the
message element, and resets all inline filter styles and the
`wl-filtered-child` marker on every descendant. -/
def removeFilterClasses (m : MsgElem) : MsgElem :=
  let cs1 := m.classes.filter (fun c => !(isFilterClass c))
  let ch1 := (removeFirstInList (hasClassToken "wl-placeholder") m.children).1
  { m with
    classes := cs1
    style := { m.style with opacity := "" }
    children := clearChildStylesList ch1 }

/-- `FilterEngine.applyFilterStyle` (src/unnamed/part_002, lines
1292-1307): `display:none` in hard-hide mode, else the dim/blur bundle. -/
def applyFilterStyle (hardHide : Bool) (s : ElemStyle) : ElemStyle :=
  if hardHide then { s with display := "none" }
  else { s with opacity := "0.2", cssFilter := "blur(2px)",
                pointerEvents := "none", userSelect := "none" }

mutual
/-- The descendant sweep of `applyFilteringToChildren`: every element
whose `textContent` trims non-empty and that is not already marked
`wl-filtered-child` gets the marker class and the filter style.  (The
second, text-node-parent pass of the source adds nothing beyond this
pass: a parent of a non-blank text node has non-blank `textContent` and
is already marked by the first pass.) -/
def sweepFrom (hard : Bool) : Dom → Dom
  | .node c t s cs =>
    if sTrim (textContent (.node c t s cs)) ≠ "" && !(c.contains "wl-filtered-child") then
      .node (addClass c "wl-filtered-child") t (applyFilterStyle hard s) (sweepList hard cs)
    else
      .node c t s (sweepList hard cs)
/-- `sweepFrom` over a forest. -/
def sweepList (hard : Bool) : List Dom → List Dom
  | [] => []
  | d :: ds => sweepFrom hard d :: sweepList hard ds
end

/-- `FilterEngine.addPlaceholderText` (src/unnamed/part_002, lines
1147-1164): prepend a `.wl-placeholder` element unless one is present. -/
def addPlaceholderText (m : MsgElem) (username : String) : MsgElem :=
  if (findInChildren (hasClassToken "wl-placeholder") m.children).isSome then m
  else
    let ph : Dom := .node ["wl-placeholder"]
      ("Message from " ++ username ++ " (click to expand)") {} []
    { m with children := ph :: m.children }

/-- `FilterEngine.applyCollapseMode` (src/unnamed/part_002, lines
1121-1145): add the collapsed class; for visually short messages
(`offsetHeight < 50`) also add the placeholder.  The click handler is
behaviour of later user interaction and is not part of the applied
state. -/
def applyCollapseMode (m : MsgElem) (username : String) : MsgElem :=
  let m1 := { m with classes := addClass m.classes "wl-collapsed" }
  if m1.offsetHeight < 50 then addPlaceholderText m1 username else m1

/-- `FilterSettings`: the `storage.config.globalSettings` fields read by
the engine. -/
structure FilterSettings where
  enabled : Bool
  hardHide : Bool
  showAllTemp : Bool
deriving Repr, DecidableEq

/-- The four visibility outcomes of the engine, named after the branch of
`applyDisplayMode` that produces them. -/
inductive DisplayAction where
  | show
  | indicator
  | remove
  | collapse
deriving Repr, DecidableEq

/-- The branch of `applyDisplayMode` selected for a given whitelist
verdict and settings: `showAllTemp || !enabled` first, then the
whitelist indicator, then hard hide, else collapse. -/
def decideAction (cfg : FilterSettings) (isWhitelisted : Bool) : DisplayAction :=
  if cfg.showAllTemp || !cfg.enabled then .show
  else if isWhitelisted then .indicator
  else if cfg.hardHide then .remove
  else .collapse

/-- Kinds of `setTimeout` handles held by the filtering core. -/
inductive TimerKind where
  | debounce
  | recheck
deriving Repr, DecidableEq

/-- A pending timer: kind, delay in milliseconds, and the id of the
message it targets (empty for the observer debounce timer). -/
structure Timer where
  kind : TimerKind
  delayMs : Nat
  target : String
deriving Repr, DecidableEq

/-- `FilterEngine.applyDisplayMode` (src/unnamed/part_002, lines
1091-1119): removes all filter classes first, then either returns
(show-all / disabled), adds the indicator (whitelisted), adds the hidden
class (hard hide) or applies collapse mode; for a non-whitelisted,
filtered message it also runs the descendant sweep and schedules the
two fire-and-forget re-check timers (100ms and 250ms). -/
def applyDisplayMode (cfg : FilterSettings) (m : MsgElem)
    (isWhitelisted : Bool) (username : String) : MsgElem × List Timer :=
  let m0 := removeFilterClasses m
  if cfg.showAllTemp || !cfg.enabled then (m0, [])
  else if isWhitelisted then
    ({ m0 with classes := addClass m0.classes "wl-filtered-indicator" }, [])
  else
    let m1 :=
      if cfg.hardHide then { m0 with classes := addClass m0.classes "wl-hidden" }
      else applyCollapseMode m0 username
    let m2 := { m1 with children := sweepList cfg.hardHide m1.children }
    (m2, [⟨.recheck, 100, m.id⟩, ⟨.recheck, 250, m.id⟩])

mutual
/-- `FilterEngine.recheckMessage` (src/unnamed/part_002, lines
1238-1290), run when a re-check timer fires: every element with a
non-blank direct text node whose styles still look visible (opacity not
`0.2`, display not `none`) and that is not marked `wl-filtered-child`
gets the marker class and the filter style. -/
def recheckFrom (hard : Bool) : Dom → Dom
  | .node c t s cs =>
    if sTrim t ≠ "" && s.opacity ≠ "0.2" && s.display ≠ "none"
        && !(c.contains "wl-filtered-child") then
      .node (addClass c "wl-filtered-child") t (applyFilterStyle hard s) (recheckList hard cs)
    else
      .node c t s (recheckList hard cs)
/-- `recheckFrom` over a forest. -/
def recheckList (hard : Bool) : List Dom → List Dom
  | [] => []
  | d :: ds => recheckFrom hard d :: recheckList hard ds
end

/-- Firing a pending re-check timer on its message. -/
def recheckMessage (cfg : FilterSettings) (m : MsgElem) : MsgElem :=
  { m with children := recheckList cfg.hardHide m.children }

/-- A `messageCache` entry: `{ isWhitelisted, username }`, written only
after a successful resolution (so `username` is a string, never null). -/
structure CacheEntry where
  isWhitelisted : Bool
  username : String
deriving Repr, DecidableEq

/-- `Map.get`-style lookup on the association-list model of a JS `Map`. -/
def cacheLookup (c : List (String × CacheEntry)) (k : String) : Option CacheEntry :=
  match c.find? (fun p => p.1 == k) with
  | some p => some p.2
  | none => none

/-- `Map.set`: overwrite the existing binding or append a new one. -/
def cacheSet (c : List (String × CacheEntry)) (k : String) (v : CacheEntry) :
    List (String × CacheEntry) :=
  if (c.find? (fun p => p.1 == k)).isSome then
    c.map (fun p => if p.1 == k then (k, v) else p)
  else c ++ [(k, v)]

/-- The engine stats counters. -/
structure FilterStats where
  processed : Nat
  filtered : Nat
  whitelisted : Nat
deriving Repr, DecidableEq

/-- The mutable state of `FilterEngine` together with its
`MessageObserver`: the result cache, the stats, the pending `setTimeout`
handles (debounce and re-check timers), the observer flag and the
engine init flag. -/
structure EngineState where
  messageCache : List (String × CacheEntry)
  stats : FilterStats
  pendingTimers : List Timer
  observing : Bool
  isInitialized : Bool
deriving Repr, DecidableEq

/-- `FilterEngine.isEnabled` (src/unnamed/part_002, lines 1386-1388). -/
def isEnabled (cfg : FilterSettings) : Bool := cfg.enabled

/-- Result of one `filterMessage` call: next engine state, the message
element after DOM mutation, the branch applied (`none` when the message
was left as-is or merely unfiltered), and instrumentation counters for
how many times `extractUsername` and `whitelist.isWhitelisted` ran. -/
structure FMResult where
  state : EngineState
  elem : MsgElem
  action : Option DisplayAction
  resolverCalls : Nat
  lookupCalls : Nat
deriving Repr

/-- `FilterEngine.filterMessage` (src/unnamed/part_002, lines
1001-1053).  The whitelist collaborator is an `Except`-valued oracle:
`Except.error` models the store throwing, which lands in the
`catch` block of the source (log, `removeFilterClasses`, return) — the
exception never escapes `filterMessage`, which is why this embedding is
a total function.  On a cache hit the cached verdict is re-applied with
no resolution and no lookup; an unresolvable message is left visible
and is neither cached nor counted. -/
def filterMessage (wl : String → Except Unit Bool) (cfg : FilterSettings)
    (st : EngineState) (m : MsgElem) : FMResult :=
  if !(isEnabled cfg) then ⟨st, m, none, 0, 0⟩
  else
    match cacheLookup st.messageCache m.id with
    | some entry =>
      let r := applyDisplayMode cfg m entry.isWhitelisted entry.username
      ⟨{ st with pendingTimers := st.pendingTimers ++ r.2 }, r.1,
        some (decideAction cfg entry.isWhitelisted), 0, 0⟩
    | none =>
      match extractUsername m with
      | none => ⟨st, removeFilterClasses m, none, 1, 0⟩
      | some u =>
        match wl u with
        | .error _ => ⟨st, removeFilterClasses m, none, 1, 1⟩
        | .ok isW =>
          let st1 := { st with messageCache := cacheSet st.messageCache m.id ⟨isW, u⟩ }
          let r := applyDisplayMode cfg m isW u
          let st2 :=
            if isW then
              { st1 with stats := { st1.stats with whitelisted := st1.stats.whitelisted + 1 } }
            else
              { st1 with stats := { st1.stats with filtered := st1.stats.filtered + 1 } }
          ⟨{ st2 with pendingTimers := st2.pendingTimers ++ r.2 }, r.1,
            some (decideAction cfg isW), 1, 1⟩

/-- Result of a `processMessages` / `refreshAllMessages` call. -/
structure ProcResult where
  state : EngineState
  elems : List MsgElem
  actions : List (Option DisplayAction)
  resolverCalls : Nat
  lookupCalls : Nat
deriving Repr

/-- The batch loop of `processMessages`: each element goes through
`filterMessage` in order, threading the engine state.  (The source
splits the list into batches of 20 with an empty-bodied yield timeout
between batches; the per-element processing is sequential either way,
so the batching is semantically transparent.) -/
def processList (wl : String → Except Unit Bool) (cfg : FilterSettings) :
    EngineState → List MsgElem → ProcResult
  | st, [] => ⟨st, [], [], 0, 0⟩
  | st, m :: ms =>
    let r := filterMessage wl cfg st m
    let rest := processList wl cfg r.state ms
    ⟨rest.state, r.elem :: rest.elems, r.action :: rest.actions,
      r.resolverCalls + rest.resolverCalls, r.lookupCalls + rest.lookupCalls⟩

/-- `FilterEngine.processMessages` (src/unnamed/part_002, lines
975-999): returns immediately when filtering is disabled; otherwise
runs the batch loop and then adds the element count to
`stats.processed`. -/
def processMessages (wl : String → Except Unit Bool) (cfg : FilterSettings)
    (st : EngineState) (msgs : List MsgElem) : ProcResult :=
  if !(isEnabled cfg) then ⟨st, msgs, [], 0, 0⟩
  else
    let r := processList wl cfg st msgs
    ⟨{ r.state with stats :=
        { r.state.stats with processed := r.state.stats.processed + msgs.length } },
      r.elems, r.actions, r.resolverCalls, r.lookupCalls⟩

/-- `FilterEngine.refreshAllMessages` (src/unnamed/part_002, lines
1339-1372): clear the result cache, then — over the messages currently
present in the document, passed here as `msgs` — either strip the filter
classes from every message (filtering disabled) or re-process them all. -/
def refreshAllMessages (wl : String → Except Unit Bool) (cfg : FilterSettings)
    (st : EngineState) (msgs : List MsgElem) : ProcResult :=
  let st0 := { st with messageCache := [] }
  if !(isEnabled cfg) then ⟨st0, msgs.map removeFilterClasses, [], 0, 0⟩
  else processMessages wl cfg st0 msgs

/-- `FilterEngine.clearAllFiltering` (src/unnamed/part_002, lines
1374-1384): strip the filter classes from every present message. -/
def clearAllFiltering (msgs : List MsgElem) : List MsgElem :=
  msgs.map removeFilterClasses

/-- `MessageObserver.handleMutations` timer bookkeeping (src/unnamed/
part_002, lines 847-859): `clearTimeout` on the previous debounce
handle, then `setTimeout(..., 50)` a fresh one. -/
def scheduleDebounce (st : EngineState) : EngineState :=
  { st with pendingTimers :=
      st.pendingTimers.filter (fun t => !(t.kind == TimerKind.debounce))
        ++ [⟨TimerKind.debounce, 50, ""⟩] }

/-- `MessageObserver.stop` (src/unnamed/part_002, lines 825-845):
disconnect the observer and `clearTimeout` the debounce handle — and
only that handle; nothing else is cancelled. -/
def observerStop (st : EngineState) : EngineState :=
  if !st.observing then st
  else
    { st with
      observing := false
      pendingTimers := st.pendingTimers.filter (fun t => !(t.kind == TimerKind.debounce)) }

/-- `FilterEngine.shutdown` (src/unnamed/part_002, lines 961-973):
stop the observer, clear all filtering from the present messages, clear
the cache, drop the init flag. -/
def shutdown (st : EngineState) (msgs : List MsgElem) : EngineState × List MsgElem :=
  if !st.isInitialized then (st, msgs)
  else
    let st1 := observerStop st
    ({ st1 with messageCache := [], isInitialized := false },
      clearAllFiltering msgs)

/-! ## Whitelist store (src/whitelist.js) -/

/-- `validateUsername` (src/whitelist.js, lines 137-141). -/
def validateUsername (u : String) : Bool :=
  sTrim u != "" && (sTrim u).length ≤ 32

/-- `normalizeUsername` (src/whitelist.js, lines 143-145). -/
def normalizeUsername (u : String) : String := sTrim u

/-- `WhitelistCollection.addEntry` (src/whitelist.js, lines 190-206): an
invalid username throws, which leaves the entry map untouched in every
caller; otherwise the entry is stored under the lower-cased key of the
trimmed name unless already present.  Entries pair the stored key with
the stored `entry.username` (the trimmed name). -/
def addEntry (entries : List (String × String)) (username : String) :
    List (String × String) :=
  if !(validateUsername username) then entries
  else
    let key := sLower (normalizeUsername username)
    if (entries.find? (fun p => p.1 == key)).isSome then entries
    else entries ++ [(key, normalizeUsername username)]

/-- A sequence of `addEntry` calls on a collection. -/
def addAll (entries : List (String × String)) : List String → List (String × String)
  | [] => entries
  | u :: us => addAll (addEntry entries u) us

/-- `WhitelistManager.rebuildLookupCache` (src/whitelist.js, lines
444-452): the `userLookup` keys are `entry.username.toLowerCase()` for
every entry of the active collection. -/
def rebuildLookupCache (entries : List (String × String)) : List String :=
  entries.map (fun p => sLower p.2)

/-- `WhitelistManager.isWhitelisted` (src/whitelist.js, lines 514-517):
membership of the lower-cased trimmed query in the lookup cache. -/
def isWhitelisted (lookup : List String) (v : String) : Bool :=
  lookup.contains (sLower (normalizeUsername v))

/-! ## Concrete fixtures used by witnesses and counterexamples -/

/-- A username marker element, as Discord renders it
(class list contains a token containing "username"). -/
def unameNode (u : String) : Dom := .node ["username-3xk"] u {} []

/-- A message authored by alice. -/
def aliceMsg : MsgElem :=
  ⟨"chat-messages-100", ["message"], {}, 40, [unameNode "alice"]⟩

/-- A message authored by bob, with body text. -/
def bobMsg : MsgElem :=
  ⟨"chat-messages-101", ["message"], {}, 40,
    [unameNode "bob", .node ["messageContent-101"] "hi" {} []]⟩

/-- An author-less continuation message: body text only, no username
marker anywhere in the subtree. -/
def contMsg : MsgElem :=
  ⟨"chat-messages-102", ["message"], {}, 40,
    [.node ["messageContent-102"] "there" {} []]⟩

/-- Default active settings: enabled, collapse mode. -/
def cfgNormal : FilterSettings := ⟨true, false, false⟩

/-- Filtering disabled. -/
def cfgDisabled : FilterSettings := ⟨false, false, false⟩

/-- A store whose active collection whitelists exactly alice
(never throws). -/
def wlAlice : String → Except Unit Bool := fun u => .ok (u == "alice")

/-- Fresh engine state right after `initialize()`. -/
def engine0 : EngineState := ⟨[], ⟨0, 0, 0⟩, [], true, true⟩

/-- A message that already carries a stale filter class from an earlier
processing pass. -/
def staleMsg : MsgElem :=
  ⟨"chat-messages-103", ["message", "wl-collapsed"], {}, 40, [unameNode "bob"]⟩

/-- All inline styles touched by the engine are at their reset value. -/
def styleCleared (s : ElemStyle) : Bool :=
  s.opacity == "" && s.display == "" && s.cssFilter == ""
    && s.pointerEvents == "" && s.userSelect == ""

mutual
/-- Observable: no element of the subtree carries the
`wl-filtered-child` marker or a leftover inline filter style. -/
def domCleared : Dom → Bool
  | .node c _ s cs =>
    !(c.contains "wl-filtered-child") && styleCleared s && domClearedList cs
/-- `domCleared` over a forest. -/
def domClearedList : List Dom → Bool
  | [] => true
  | d :: ds => domCleared d && domClearedList ds
end

/-! ## Helper lemmas -/

lemma dom_ind (P : Dom → Prop) (Q : List Dom → Prop)
    (hn : ∀ c t s cs, Q cs → P (Dom.node c t s cs))
    (hnil : Q []) (hcons : ∀ d ds, P d → Q ds → Q (d :: ds)) :
    ∀ d, P d := fun d => Dom.rec hn hnil hcons d

lemma domList_ind (P : Dom → Prop) (Q : List Dom → Prop)
    (hn : ∀ c t s cs, Q cs → P (Dom.node c t s cs))
    (hnil : Q []) (hcons : ∀ d ds, P d → Q ds → Q (d :: ds)) :
    ∀ ds, Q ds := fun ds =>
  List.rec hnil (fun d ds2 ih => hcons d ds2 (dom_ind P Q hn hnil hcons d) ih) ds

lemma contains_filter_ne (l : List String) (s : String) :
    (l.filter (fun x => x ≠ s)).contains s = false := by
  by_contra h
  simp only [Bool.not_eq_false] at h
  have := List.elem_iff.mp h
  simp [List.mem_filter] at this

lemma clearChildStyles_cleared :
    (∀ d, domCleared (clearChildStyles d) = true) ∧
    (∀ ds, domClearedList (clearChildStylesList ds) = true) := by
  constructor
  · refine dom_ind (fun d => domCleared (clearChildStyles d) = true)
      (fun ds => domClearedList (clearChildStylesList ds) = true) ?_ ?_ ?_
    · intro c t s cs ih
      simp [clearChildStyles, clearChildStylesList, domCleared, styleCleared,
        contains_filter_ne, ih]
    · rfl
    · intro d ds hd hds
      simp [clearChildStylesList, domClearedList, hd, hds]
  · refine domList_ind (fun d => domCleared (clearChildStyles d) = true)
      (fun ds => domClearedList (clearChildStylesList ds) = true) ?_ ?_ ?_
    · intro c t s cs ih
      simp [clearChildStyles, clearChildStylesList, domCleared, styleCleared,
        contains_filter_ne, ih]
    · rfl
    · intro d ds hd hds
      simp [clearChildStylesList, domClearedList, hd, hds]

lemma removeFilterClasses_cleared (m : MsgElem) :
    domClearedList (removeFilterClasses m).children = true := by
  simp [removeFilterClasses, clearChildStyles_cleared.2]

lemma lookup_map_overwrite (c : List (String × CacheEntry)) (k : String)
    (v : CacheEntry) (h : (c.find? (fun p => p.1 == k)).isSome) :
    cacheLookup (c.map (fun p => if p.1 == k then (k, v) else p)) k = some v := by
  induction c with
  | nil => simp at h
  | cons p ps ih =>
    by_cases hp : (p.1 == k) = true
    · simp [cacheLookup, List.find?, hp]
    · have h2 : (ps.find? (fun q => q.1 == k)).isSome := by
        simpa [List.find?, hp] using h
      simpa [cacheLookup, List.find?, List.map, hp] using ih h2

lemma lookup_append_self (c : List (String × CacheEntry)) (k : String)
    (v : CacheEntry) (h : c.find? (fun p => p.1 == k) = none) :
    cacheLookup (c ++ [(k, v)]) k = some v := by
  induction c with
  | nil => simp [cacheLookup, List.find?]
  | cons p ps ih =>
    by_cases hp : (p.1 == k) = true
    · simp [List.find?, hp] at h
    · have h2 : ps.find? (fun q => q.1 == k) = none := by
        simpa [List.find?, hp] using h
      simpa [cacheLookup, List.find?, hp] using ih h2

lemma cacheLookup_cacheSet_self (c : List (String × CacheEntry)) (k : String)
    (v : CacheEntry) : cacheLookup (cacheSet c k v) k = some v := by
  by_cases h : (c.find? (fun p => p.1 == k)).isSome
  · simp only [cacheSet, h, if_pos]
    exact lookup_map_overwrite c k v h
  · have hn : c.find? (fun p => p.1 == k) = none := by
      cases hfind : c.find? (fun p => p.1 == k) with
      | none => rfl
      | some x => simp [hfind] at h
    simp only [cacheSet, hn, Option.isSome_none, Bool.false_eq_true, if_false]
    exact lookup_append_self c k v hn

lemma filterMessage_cache_only (wl : String → Except Unit Bool) (cfg : FilterSettings)
    (st st2 : EngineState) (m : MsgElem) (h : st.messageCache = st2.messageCache) :
    (filterMessage wl cfg st m).elem = (filterMessage wl cfg st2 m).elem ∧
    (filterMessage wl cfg st m).action = (filterMessage wl cfg st2 m).action ∧
    (filterMessage wl cfg st m).state.messageCache
      = (filterMessage wl cfg st2 m).state.messageCache ∧
    (filterMessage wl cfg st m).resolverCalls = (filterMessage wl cfg st2 m).resolverCalls ∧
    (filterMessage wl cfg st m).lookupCalls = (filterMessage wl cfg st2 m).lookupCalls := by
  by_cases hE : isEnabled cfg = true
  · cases hc : cacheLookup st2.messageCache m.id with
    | some e => simp [filterMessage, hE, h, hc]
    | none =>
      cases hx : extractUsername m with
      | none => simp [filterMessage, hE, h, hc, hx]
      | some u =>
        cases hw : wl u with
        | error e => simp [filterMessage, hE, h, hc, hx, hw]
        | ok isW =>
          cases isW <;> simp [filterMessage, hE, h, hc, hx, hw]
  · have hE2 : isEnabled cfg = false := by
      cases hE3 : isEnabled cfg
      · rfl
      · exact absurd hE3 hE
    simp [filterMessage, hE2, h]

lemma processList_cache_only (wl : String → Except Unit Bool) (cfg : FilterSettings) :
    ∀ (ms : List MsgElem) (st st2 : EngineState),
    st.messageCache = st2.messageCache →
    (processList wl cfg st ms).elems = (processList wl cfg st2 ms).elems ∧
    (processList wl cfg st ms).actions = (processList wl cfg st2 ms).actions ∧
    (processList wl cfg st ms).state.messageCache
      = (processList wl cfg st2 ms).state.messageCache ∧
    (processList wl cfg st ms).resolverCalls = (processList wl cfg st2 ms).resolverCalls ∧
    (processList wl cfg st ms).lookupCalls = (processList wl cfg st2 ms).lookupCalls := by
  intro ms
  induction ms with
  | nil => intro st st2 h; simp [processList, h]
  | cons m ms ih =>
    intro st st2 h
    have hf := filterMessage_cache_only wl cfg st st2 m h
    have hrec := ih (filterMessage wl cfg st m).state (filterMessage wl cfg st2 m).state hf.2.2.1
    simp only [processList]
    exact ⟨by rw [hf.1, hrec.1], by rw [hf.2.1, hrec.2.1], hrec.2.2.1,
      by rw [hf.2.2.2.1, hrec.2.2.2.1], by rw [hf.2.2.2.2, hrec.2.2.2.2]⟩

lemma filter_after_filter_not (l : List String) (p : String → Bool) :
    (l.filter (fun c => !(p c))).filter p = [] := by
  induction l with
  | nil => rfl
  | cons a l ih =>
    by_cases h : p a = true
    · simp [List.filter, h, ih]
    · simp only [Bool.not_eq_true] at h
      simp [List.filter, h, ih]

lemma removeFilterClasses_filter (m : MsgElem) :
    ((removeFilterClasses m).classes).filter (fun c => isFilterClass c) = [] := by
  simp [removeFilterClasses, filter_after_filter_not]

lemma addClass_filter_of_clean (l : List String) (c : String)
    (hl : l.filter (fun x => isFilterClass x) = []) (hc : isFilterClass c = true) :
    (addClass l c).filter (fun x => isFilterClass x) = [c] := by
  have hmem : c ∉ l := by
    intro hm
    have : c ∈ l.filter (fun x => isFilterClass x) := List.mem_filter.mpr ⟨hm, hc⟩
    simp [hl] at this
  simp [addClass, hmem, List.filter_append, hl, hc]

lemma applyCollapseMode_classes (m : MsgElem) (u : String) :
    (applyCollapseMode m u).classes = addClass m.classes "wl-collapsed" := by
  simp only [applyCollapseMode, addPlaceholderText]
  split
  · split <;> rfl
  · rfl

lemma applyCollapseMode_id (m : MsgElem) (u : String) :
    (applyCollapseMode m u).id = m.id := by
  simp only [applyCollapseMode, addPlaceholderText]
  split
  · split <;> rfl
  · rfl

lemma removeFilterClasses_id (m : MsgElem) : (removeFilterClasses m).id = m.id := rfl

lemma applyDisplayMode_id (cfg : FilterSettings) (m : MsgElem) (w : Bool) (u : String) :
    ((applyDisplayMode cfg m w u).1).id = m.id := by
  simp only [applyDisplayMode]
  split
  · rfl
  · split
    · rfl
    · split <;> simp [applyCollapseMode_id, removeFilterClasses_id]

lemma applyDisplayMode_filter_classes (cfg : FilterSettings) (m : MsgElem)
    (w : Bool) (u : String) :
    ((applyDisplayMode cfg m w u).1).classes.filter (fun c => isFilterClass c) =
      (if cfg.showAllTemp || !cfg.enabled then []
       else if w then ["wl-filtered-indicator"]
       else if cfg.hardHide then ["wl-hidden"]
       else ["wl-collapsed"]) := by
  cases hS : (cfg.showAllTemp || !cfg.enabled) with
  | true => simp [applyDisplayMode, hS, removeFilterClasses_filter]
  | false =>
    cases hw : w with
    | true =>
      have hcl := addClass_filter_of_clean (removeFilterClasses m).classes
        "wl-filtered-indicator" (removeFilterClasses_filter m) (by decide)
      simp [applyDisplayMode, hS, hw, hcl]
    | false =>
      cases hH : cfg.hardHide with
      | true =>
        have hcl := addClass_filter_of_clean (removeFilterClasses m).classes
          "wl-hidden" (removeFilterClasses_filter m) (by decide)
        simp [applyDisplayMode, hS, hw, hH, hcl]
      | false =>
        have hcl := addClass_filter_of_clean (removeFilterClasses m).classes
          "wl-collapsed" (removeFilterClasses_filter m) (by decide)
        simp [applyDisplayMode, hS, hw, hH, applyCollapseMode_classes, hcl]

/-! ## Claim theorems -/

/-- C1.  For every message node, whitelist verdict and settings state,
`applyDisplayMode` leaves, among the engine filter classes, exactly what
the spec priority order dictates: none when `showAllTemp` is set or
`enabled` is false (Show — in particular `showAllTemp` beats `hardHide`
when both are set, and `enabled=false` overrides both), only the
indicator class for a whitelisted author, the hidden class under
`hardHide` (Remove), and the collapsed class otherwise (Collapse). -/
theorem applyDisplayMode_priority (cfg : FilterSettings) (m : MsgElem)
    (w : Bool) (u : String) :
    ((applyDisplayMode cfg m w u).1).classes.filter (fun c => isFilterClass c) =
      (if cfg.showAllTemp || !cfg.enabled then []
       else if w then ["wl-filtered-indicator"]
       else if cfg.hardHide then ["wl-hidden"]
       else ["wl-collapsed"]) :=
  applyDisplayMode_filter_classes cfg m w u

/-- C3.  When filtering is active and the message id is not cached, a
message whose username cannot be resolved — or one for which the
whitelist collaborator throws during processing — is handed to
`removeFilterClasses`: the engine state is untouched, the node ends with
no filter classes, a reset inline opacity, and every descendant free of
the `wl-filtered-child` marker and of inline filter styles.
`filterMessage` is a total function in this embedding precisely because
the `catch` of the source confines the exception to the per-message
boundary, so one malformed node cannot abort the rest of the batch. -/
theorem filterMessage_fail_open (wl : String → Except Unit Bool)
    (cfg : FilterSettings) (st : EngineState) (m : MsgElem)
    (hen : cfg.enabled = true)
    (hmiss : cacheLookup st.messageCache m.id = none)
    (hfail : extractUsername m = none ∨
      ∃ u, extractUsername m = some u ∧ wl u = .error ()) :
    (filterMessage wl cfg st m).elem = removeFilterClasses m ∧
    (filterMessage wl cfg st m).state = st ∧
    ((filterMessage wl cfg st m).elem).classes.filter (fun c => isFilterClass c) = [] ∧
    ((filterMessage wl cfg st m).elem).style.opacity = "" ∧
    domClearedList ((filterMessage wl cfg st m).elem).children = true := by
  have hbase : (filterMessage wl cfg st m).elem = removeFilterClasses m ∧
      (filterMessage wl cfg st m).state = st := by
    rcases hfail with h | ⟨u, hu, herr⟩
    · simp [filterMessage, isEnabled, hen, hmiss, h]
    · simp [filterMessage, isEnabled, hen, hmiss, hu, herr]
  refine ⟨hbase.1, hbase.2, ?_, ?_, ?_⟩
  · rw [hbase.1]; exact removeFilterClasses_filter m
  · rw [hbase.1]; rfl
  · rw [hbase.1]; exact removeFilterClasses_cleared m

/-- C3 witness: the author-less continuation message is left fully
visible by a fresh enabled engine. -/
theorem filterMessage_fail_open_witness :
    (filterMessage wlAlice cfgNormal engine0 contMsg).elem = removeFilterClasses contMsg ∧
    (filterMessage wlAlice cfgNormal engine0 contMsg).state = engine0 ∧
    ((filterMessage wlAlice cfgNormal engine0 contMsg).elem).classes.filter
      (fun c => isFilterClass c) = [] ∧
    ((filterMessage wlAlice cfgNormal engine0 contMsg).elem).style.opacity = "" ∧
    domClearedList ((filterMessage wlAlice cfgNormal engine0 contMsg).elem).children = true :=
  filterMessage_fail_open wlAlice cfgNormal engine0 contMsg rfl rfl
    (Or.inl (by
      simp [extractUsername, contMsg, querySelUsername, querySelReplyAuthor,
        querySelHeaderTextUsername, querySelHeaderUsername, querySelDesc, findInChildren,
        findFrom, findWithAncList, findWithAncFrom, selectorUsername, hasClassContaining,
        strContains, containsChars, startsWithChars, textContent, textContentList,
        collectAll, collectFrom, fallbackUsername, sTrim, dropLeadingWs, classAttr]))

/-- C5.  With settings unchanged, processing the same node twice: the
first call runs the resolver and the whitelist lookup exactly once and
caches `{ username, isWhitelisted }` under the message id; the second
call performs no resolution and no lookup (cache hit) and applies the
identical display action. -/
theorem processMessages_second_call_cache_hit
    (wl0 : String → Bool) (cfg : FilterSettings) (st : EngineState)
    (m : MsgElem) (u : String)
    (hen : cfg.enabled = true)
    (hmiss : cacheLookup st.messageCache m.id = none)
    (hres : extractUsername m = some u) :
    (processMessages (fun s => .ok (wl0 s)) cfg st [m]).resolverCalls = 1 ∧
    (processMessages (fun s => .ok (wl0 s)) cfg st [m]).lookupCalls = 1 ∧
    cacheLookup (processMessages (fun s => .ok (wl0 s)) cfg st [m]).state.messageCache m.id
      = some ⟨wl0 u, u⟩ ∧
    (processMessages (fun s => .ok (wl0 s)) cfg st [m]).actions
      = [some (decideAction cfg (wl0 u))] ∧
    (processMessages (fun s => .ok (wl0 s)) cfg
        (processMessages (fun s => .ok (wl0 s)) cfg st [m]).state
        (processMessages (fun s => .ok (wl0 s)) cfg st [m]).elems).resolverCalls = 0 ∧
    (processMessages (fun s => .ok (wl0 s)) cfg
        (processMessages (fun s => .ok (wl0 s)) cfg st [m]).state
        (processMessages (fun s => .ok (wl0 s)) cfg st [m]).elems).lookupCalls = 0 ∧
    (processMessages (fun s => .ok (wl0 s)) cfg
        (processMessages (fun s => .ok (wl0 s)) cfg st [m]).state
        (processMessages (fun s => .ok (wl0 s)) cfg st [m]).elems).actions
      = (processMessages (fun s => .ok (wl0 s)) cfg st [m]).actions := by
  cases hwu : wl0 u with
  | true =>
    simp [processMessages, processList, filterMessage, isEnabled, hen, hmiss, hres, hwu,
      applyDisplayMode_id, cacheLookup_cacheSet_self]
  | false =>
    simp [processMessages, processList, filterMessage, isEnabled, hen, hmiss, hres, hwu,
      applyDisplayMode_id, cacheLookup_cacheSet_self]

/-- C5 witness: alice's message on a fresh enabled engine with alice
whitelisted. -/
theorem processMessages_second_call_cache_hit_witness :
    (processMessages (fun s => .ok (s == "alice")) cfgNormal engine0 [aliceMsg]).resolverCalls = 1 ∧
    (processMessages (fun s => .ok (s == "alice")) cfgNormal engine0 [aliceMsg]).lookupCalls = 1 ∧
    cacheLookup (processMessages (fun s => .ok (s == "alice")) cfgNormal engine0
        [aliceMsg]).state.messageCache aliceMsg.id = some ⟨true, "alice"⟩ ∧
    (processMessages (fun s => .ok (s == "alice")) cfgNormal engine0 [aliceMsg]).actions
      = [some (decideAction cfgNormal true)] ∧
    (processMessages (fun s => .ok (s == "alice")) cfgNormal
        (processMessages (fun s => .ok (s == "alice")) cfgNormal engine0 [aliceMsg]).state
        (processMessages (fun s => .ok (s == "alice")) cfgNormal engine0 [aliceMsg]).elems).resolverCalls = 0 ∧
    (processMessages (fun s => .ok (s == "alice")) cfgNormal
        (processMessages (fun s => .ok (s == "alice")) cfgNormal engine0 [aliceMsg]).state
        (processMessages (fun s => .ok (s == "alice")) cfgNormal engine0 [aliceMsg]).elems).lookupCalls = 0 ∧
    (processMessages (fun s => .ok (s == "alice")) cfgNormal
        (processMessages (fun s => .ok (s == "alice")) cfgNormal engine0 [aliceMsg]).state
        (processMessages (fun s => .ok (s == "alice")) cfgNormal engine0 [aliceMsg]).elems).actions
      = (processMessages (fun s => .ok (s == "alice")) cfgNormal engine0 [aliceMsg]).actions :=
  processMessages_second_call_cache_hit (fun s => s == "alice") cfgNormal engine0
    aliceMsg "alice" rfl rfl
    (by
      simp [extractUsername, aliceMsg, unameNode, querySelUsername, querySelReplyAuthor,
        querySelHeaderTextUsername, querySelHeaderUsername, querySelDesc, findInChildren,
        findFrom, findWithAncList, findWithAncFrom, selectorUsername, hasClassContaining,
        strContains, containsChars, startsWithChars, textContent, textContentList,
        collectAll, collectFrom, fallbackUsername, sTrim, dropLeadingWs, classAttr])

/-- C6.  `refreshAllMessages` first empties the result cache, so its
output — elements, actions, and resulting cache — does not depend on any
pre-refresh cache contents or counters; and when filtering is disabled
it strips the filter classes from every present message, restoring full
visibility immediately. -/
theorem refreshAllMessages_clears_staleness (wl : String → Except Unit Bool)
    (cfg : FilterSettings) (st st2 : EngineState) (msgs : List MsgElem) :
    ((refreshAllMessages wl cfg st msgs).elems = (refreshAllMessages wl cfg st2 msgs).elems) ∧
    ((refreshAllMessages wl cfg st msgs).actions = (refreshAllMessages wl cfg st2 msgs).actions) ∧
    ((refreshAllMessages wl cfg st msgs).state.messageCache
      = (refreshAllMessages wl cfg st2 msgs).state.messageCache) ∧
    (cfg.enabled = false →
      (refreshAllMessages wl cfg st msgs).elems = msgs.map removeFilterClasses) ∧
    (cfg.enabled = false →
      ∀ e ∈ (refreshAllMessages wl cfg st msgs).elems,
        e.classes.filter (fun c => isFilterClass c) = []) := by
  by_cases hE : isEnabled cfg = true
  · have hlist := processList_cache_only wl cfg msgs
      { st with messageCache := [] } { st2 with messageCache := [] } rfl
    have hen : cfg.enabled = true := hE
    refine ⟨?_, ?_, ?_, ?_, ?_⟩
    · simp [refreshAllMessages, processMessages, hE, hlist.1]
    · simp [refreshAllMessages, processMessages, hE, hlist.2.1]
    · simp [refreshAllMessages, processMessages, hE, hlist.2.2.1]
    · intro hdis; rw [hdis] at hen; cases hen
    · intro hdis; rw [hdis] at hen; cases hen
  · have hE2 : isEnabled cfg = false := by
      cases hE3 : isEnabled cfg
      · rfl
      · exact absurd hE3 hE
    refine ⟨?_, ?_, ?_, ?_, ?_⟩
    · simp [refreshAllMessages, hE2]
    · simp [refreshAllMessages, hE2]
    · simp [refreshAllMessages, hE2]
    · intro hdis; simp [refreshAllMessages, hE2]
    · intro hdis e he
      simp only [refreshAllMessages, hE2, Bool.not_false, if_pos] at he
      rcases List.mem_map.mp he with ⟨m0, hm0, rfl⟩
      exact removeFilterClasses_filter m0

/-- C6 witness: with filtering just disabled, a refresh over a message
still wearing a stale collapse class strips it, regardless of the old
cache contents. -/
theorem refreshAllMessages_clears_staleness_witness :
    (refreshAllMessages wlAlice cfgDisabled
      ⟨[("chat-messages-103", ⟨false, "bob"⟩)], ⟨5, 2, 3⟩, [], true, true⟩
      [staleMsg]).elems = [staleMsg].map removeFilterClasses :=
  (refreshAllMessages_clears_staleness wlAlice cfgDisabled
    ⟨[("chat-messages-103", ⟨false, "bob"⟩)], ⟨5, 2, 3⟩, [], true, true⟩
    engine0 [staleMsg]).2.2.2.1 rfl

/-- C7 counterexample.  The spec claims a per-message toggle override
that forces Show with highest priority.  No such toggle exists in the
source: `applyDisplayMode` takes only the whitelist verdict and the
settings, the engine state holds no message-id → bool override map, and
under enabled, non-temporary settings a non-whitelisted message is
collapsed — there is no input through which a single message could be
forced visible. -/
theorem no_per_message_toggle_collapse_stands :
    decideAction cfgNormal false = DisplayAction.collapse ∧
    ((applyDisplayMode cfgNormal bobMsg false "bob").1).classes.filter
      (fun c => isFilterClass c) = ["wl-collapsed"] ∧
    (["wl-collapsed"] : List String) ≠ [] := by
  refine ⟨rfl, ?_, by decide⟩
  simpa [cfgNormal] using applyDisplayMode_filter_classes cfgNormal bobMsg false "bob"

/-- C7 (amended).  There is no per-message toggle layered above the
policy: the filter-class outcome of `applyDisplayMode` is a function of
the whitelist verdict and the settings alone, identical across any two
message nodes and usernames — no per-message datum can alter it. -/
theorem applyDisplayMode_no_per_message_override (cfg : FilterSettings)
    (m m2 : MsgElem) (w : Bool) (u u2 : String) :
    ((applyDisplayMode cfg m w u).1).classes.filter (fun c => isFilterClass c) =
      ((applyDisplayMode cfg m2 w u2).1).classes.filter (fun c => isFilterClass c) := by
  rw [applyDisplayMode_filter_classes, applyDisplayMode_filter_classes]

/-- C10.  When `settings.enabled` is false, `processMessages` returns
immediately: elements (with whatever filter classes they already wear),
cache, stats and timers are all unchanged, no action is applied and
neither the resolver nor the whitelist lookup runs. -/
theorem processMessages_disabled_is_noop (wl : String → Except Unit Bool)
    (cfg : FilterSettings) (st : EngineState) (msgs : List MsgElem)
    (h : cfg.enabled = false) :
    processMessages wl cfg st msgs = ⟨st, msgs, [], 0, 0⟩ := by
  simp [processMessages, isEnabled, h]

/-- C10 witness: a disabled engine leaves a message with a stale
collapse class exactly as it was. -/
theorem processMessages_disabled_is_noop_witness :
    processMessages wlAlice cfgDisabled engine0 [staleMsg] = ⟨engine0, [staleMsg], [], 0, 0⟩ :=
  processMessages_disabled_is_noop wlAlice cfgDisabled engine0 [staleMsg] rfl

lemma find_none_of_collect_empty (p : Dom → Bool) :
    (∀ d, collectFrom p d = [] → findFrom p d = none) ∧
    (∀ ds, collectAll p ds = [] → findInChildren p ds = none) := by
  constructor
  · refine dom_ind (fun d => collectFrom p d = [] → findFrom p d = none)
      (fun ds => collectAll p ds = [] → findInChildren p ds = none) ?_ ?_ ?_
    · intro c t s cs ih h
      simp only [collectFrom] at h
      rcases List.append_eq_nil.mp h with ⟨h1, h2⟩
      have hp : p (Dom.node c t s cs) = false := by
        by_contra hcon
        simp only [Bool.not_eq_false] at hcon
        simp [hcon] at h1
      simp [findFrom, hp, ih h2]
    · intro _; rfl
    · intro d ds hd hds h
      simp only [collectAll] at h
      rcases List.append_eq_nil.mp h with ⟨h1, h2⟩
      simp [findInChildren, hd h1, hds h2]
  · refine domList_ind (fun d => collectFrom p d = [] → findFrom p d = none)
      (fun ds => collectAll p ds = [] → findInChildren p ds = none) ?_ ?_ ?_
    · intro c t s cs ih h
      simp only [collectFrom] at h
      rcases List.append_eq_nil.mp h with ⟨h1, h2⟩
      have hp : p (Dom.node c t s cs) = false := by
        by_contra hcon
        simp only [Bool.not_eq_false] at hcon
        simp [hcon] at h1
      simp [findFrom, hp, ih h2]
    · intro _; rfl
    · intro d ds hd hds h
      simp only [collectAll] at h
      rcases List.append_eq_nil.mp h with ⟨h1, h2⟩
      simp [findInChildren, hd h1, hds h2]

lemma findanc_none_of_collect_empty (pa pb : Dom → Bool) :
    (∀ d, collectFrom pb d = [] → ∀ anc, findWithAncFrom pa pb anc d = none) ∧
    (∀ ds, collectAll pb ds = [] → ∀ anc, findWithAncList pa pb anc ds = none) := by
  constructor
  · refine dom_ind (fun d => collectFrom pb d = [] → ∀ anc, findWithAncFrom pa pb anc d = none)
      (fun ds => collectAll pb ds = [] → ∀ anc, findWithAncList pa pb anc ds = none) ?_ ?_ ?_
    · intro c t s cs ih h anc
      simp only [collectFrom] at h
      rcases List.append_eq_nil.mp h with ⟨h1, h2⟩
      have hp : pb (Dom.node c t s cs) = false := by
        by_contra hcon
        simp only [Bool.not_eq_false] at hcon
        simp [hcon] at h1
      simp [findWithAncFrom, hp, ih h2]
    · intro _ anc; rfl
    · intro d ds hd hds h anc
      simp only [collectAll] at h
      rcases List.append_eq_nil.mp h with ⟨h1, h2⟩
      simp [findWithAncList, hd h1, hds h2]
  · refine domList_ind (fun d => collectFrom pb d = [] → ∀ anc, findWithAncFrom pa pb anc d = none)
      (fun ds => collectAll pb ds = [] → ∀ anc, findWithAncList pa pb anc ds = none) ?_ ?_ ?_
    · intro c t s cs ih h anc
      simp only [collectFrom] at h
      rcases List.append_eq_nil.mp h with ⟨h1, h2⟩
      have hp : pb (Dom.node c t s cs) = false := by
        by_contra hcon
        simp only [Bool.not_eq_false] at hcon
        simp [hcon] at h1
      simp [findWithAncFrom, hp, ih h2]
    · intro _ anc; rfl
    · intro d ds hd hds h anc
      simp only [collectAll] at h
      rcases List.append_eq_nil.mp h with ⟨h1, h2⟩
      simp [findWithAncList, hd h1, hds h2]

/-- C2 counterexample.  The source `extractUsername` inspects only the
message node itself — there is no backward walk over preceding sibling
message nodes.  With a resolvable author message followed by an
author-less continuation node, the continuation resolves to `null`, not
to the preceding author; a node with its own author keeps it. -/
theorem extractUsername_no_inheritance :
    extractUsername aliceMsg = some "alice" ∧
    extractUsername contMsg = none ∧
    extractUsername contMsg ≠ some "alice" ∧
    extractUsername bobMsg = some "bob" := by
  have hcont : extractUsername contMsg = none := by
    simp [extractUsername, contMsg, querySelUsername, querySelReplyAuthor,
      querySelHeaderTextUsername, querySelHeaderUsername, querySelDesc, findInChildren,
      findFrom, findWithAncList, findWithAncFrom, selectorUsername, hasClassContaining,
      strContains, containsChars, startsWithChars, textContent, textContentList,
      collectAll, collectFrom, fallbackUsername, sTrim, dropLeadingWs, classAttr]
  refine ⟨?_, hcont, by rw [hcont]; simp, ?_⟩
  · simp [extractUsername, aliceMsg, unameNode, querySelUsername, querySelReplyAuthor,
      querySelHeaderTextUsername, querySelHeaderUsername, querySelDesc, findInChildren,
      findFrom, findWithAncList, findWithAncFrom, selectorUsername, hasClassContaining,
      strContains, containsChars, startsWithChars, textContent, textContentList,
      collectAll, collectFrom, fallbackUsername, sTrim, dropLeadingWs, classAttr]
  · simp [extractUsername, bobMsg, unameNode, querySelUsername, querySelReplyAuthor,
      querySelHeaderTextUsername, querySelHeaderUsername, querySelDesc, findInChildren,
      findFrom, findWithAncList, findWithAncFrom, selectorUsername, hasClassContaining,
      strContains, containsChars, startsWithChars, textContent, textContentList,
      collectAll, collectFrom, fallbackUsername, sTrim, dropLeadingWs, classAttr]

/-- C2 (amended).  `extractUsername` resolves from markup inside the
node alone: a message with no username-classed element anywhere in its
subtree — in particular an author-less grouped/continuation message —
resolves to `null` (and is then left visible by the caller); no
backward-sibling inheritance exists in the code. -/
theorem extractUsername_no_sibling_walk (m : MsgElem)
    (h : collectAll (hasClassContaining "username") m.children = []) :
    extractUsername m = none := by
  have h1 : querySelUsername m = none :=
    (find_none_of_collect_empty (hasClassContaining "username")).2 m.children h
  have h2 : ∀ outer, querySelDesc outer "username" m = none := fun outer =>
    (findanc_none_of_collect_empty (hasClassContaining outer)
      (hasClassContaining "username")).2 m.children h _
  simp [extractUsername, h1, querySelReplyAuthor, querySelHeaderTextUsername,
    querySelHeaderUsername, h2, selectorUsername, h, fallbackUsername]

/-- C2 witness: the concrete continuation node has no username-classed
descendant and resolves to `null`. -/
theorem extractUsername_no_sibling_walk_witness :
    extractUsername contMsg = none :=
  extractUsername_no_sibling_walk contMsg
    (by simp [contMsg, collectAll, collectFrom, hasClassContaining, classAttr,
      strContains, containsChars, startsWithChars])

/-- C8.  `extractUsername` tries its selectors in order with the first
match winning: a hit of the author/username selector with non-empty
trimmed text is returned outright; the reply-preview author selector is
consulted only after the first fails; any fallback result is a
non-empty trimmed text of at most 32 characters, and a candidate longer
than 32 characters is skipped in favour of later ones; when every
selector and the fallback fail the result is `null`. -/
theorem extractUsername_ordered_heuristics :
    (∀ (m : MsgElem) (el : Dom), querySelUsername m = some el →
      textContent el ≠ "" → sTrim (textContent el) ≠ "" →
      extractUsername m = some (sTrim (textContent el))) ∧
    (∀ (m : MsgElem) (u : String),
      selectorUsername (querySelUsername m) = none →
      selectorUsername (querySelReplyAuthor m) = some u →
      extractUsername m = some u) ∧
    (∀ (els : List Dom) (t : String), fallbackUsername els = some t →
      t ≠ "" ∧ t.length ≤ 32) ∧
    (∀ (el : Dom) (els : List Dom), 32 < (sTrim (textContent el)).length →
      fallbackUsername (el :: els) = fallbackUsername els) ∧
    (∀ (m : MsgElem),
      selectorUsername (querySelUsername m) = none →
      selectorUsername (querySelReplyAuthor m) = none →
      selectorUsername (querySelHeaderTextUsername m) = none →
      selectorUsername (querySelHeaderUsername m) = none →
      fallbackUsername (collectAll (hasClassContaining "username") m.children) = none →
      extractUsername m = none) := by
  refine ⟨?_, ?_, ?_, ?_, ?_⟩
  · intro m el hq hne1 hne2
    simp [extractUsername, hq, selectorUsername, hne1, hne2]
  · intro m u h1 h2
    simp [extractUsername, h1, h2]
  · intro els
    induction els with
    | nil => intro t h; simp [fallbackUsername] at h
    | cons el els ih =>
      intro t h
      by_cases hc : (sTrim (textContent el) != "" && (sTrim (textContent el)).length ≤ 32) = true
      · simp only [fallbackUsername, hc, if_pos] at h
        have hc2 : (sTrim (textContent el) != "") = true ∧
            decide ((sTrim (textContent el)).length ≤ 32) = true := by simpa using hc
        cases h
        exact ⟨by simpa using hc2.1, by simpa using hc2.2⟩
      · simp only [fallbackUsername, hc, if_neg, Bool.false_eq_true] at h
        exact ih t h
  · intro el els hlen
    have h32 : decide ((sTrim (textContent el)).length ≤ 32) = false := by
      simp only [decide_eq_false_iff_not]
      omega
    have hc : (sTrim (textContent el) != "" && decide ((sTrim (textContent el)).length ≤ 32)) = false := by
      simp [h32]
    simp [fallbackUsername, hc]
  · intro m h1 h2 h3 h4 h5
    simp [extractUsername, h1, h2, h3, h4, h5]

/-- C8 witness: alice's message resolves through the first selector. -/
theorem extractUsername_ordered_heuristics_witness :
    extractUsername aliceMsg = some (sTrim (textContent (unameNode "alice"))) :=
  extractUsername_ordered_heuristics.1 aliceMsg (unameNode "alice")
    (by simp [aliceMsg, unameNode, querySelUsername, findInChildren, findFrom,
      hasClassContaining, classAttr, strContains, containsChars, startsWithChars])
    (by simp [unameNode, textContent, textContentList])
    (by simp [unameNode, textContent, textContentList, sTrim, dropLeadingWs])

/-- C4 counterexample.  A concrete run under enabled settings: a pending
debounce timer and one non-whitelisted message; processing schedules the
two re-check timers; `shutdown` then cancels the debounce timer but
leaves both re-check timers pending — "all pending timers are
synchronously cancelled" is false — and if a leftover re-check fires it
re-applies filter styles to the (just cleared) message children, a
filtering DOM mutation after shutdown. -/
theorem shutdown_leaves_recheck_timers :
    (scheduleDebounce engine0).pendingTimers = [⟨TimerKind.debounce, 50, ""⟩] ∧
    (processMessages wlAlice cfgNormal (scheduleDebounce engine0) [bobMsg]).state.pendingTimers
      = [⟨TimerKind.debounce, 50, ""⟩, ⟨TimerKind.recheck, 100, "chat-messages-101"⟩,
         ⟨TimerKind.recheck, 250, "chat-messages-101"⟩] ∧
    (shutdown (processMessages wlAlice cfgNormal (scheduleDebounce engine0) [bobMsg]).state
        (processMessages wlAlice cfgNormal (scheduleDebounce engine0) [bobMsg]).elems).1.pendingTimers
      = [⟨TimerKind.recheck, 100, "chat-messages-101"⟩,
         ⟨TimerKind.recheck, 250, "chat-messages-101"⟩] ∧
    ([⟨TimerKind.recheck, 100, "chat-messages-101"⟩,
      ⟨TimerKind.recheck, 250, "chat-messages-101"⟩] : List Timer) ≠ [] ∧
    domClearedList (removeFilterClasses bobMsg).children = true ∧
    domClearedList ((recheckMessage cfgNormal (removeFilterClasses bobMsg)).children) = false := by
  refine ⟨by simp [scheduleDebounce, engine0], ?_, ?_, by decide, ?_, ?_⟩
  · simp [processMessages, processList, filterMessage, isEnabled, cfgNormal, wlAlice,
      scheduleDebounce, engine0, bobMsg, unameNode, cacheLookup, cacheSet, List.find?,
      extractUsername, querySelUsername, querySelReplyAuthor, querySelHeaderTextUsername,
      querySelHeaderUsername, querySelDesc, findInChildren, findFrom, findWithAncList,
      findWithAncFrom, selectorUsername, hasClassContaining, strContains, containsChars,
      startsWithChars, textContent, textContentList, collectAll, collectFrom,
      fallbackUsername, sTrim, dropLeadingWs, classAttr, applyDisplayMode,
      removeFilterClasses, removeFirstInList, removeFirstFrom, clearChildStyles,
      clearChildStylesList, hasClassToken, applyCollapseMode, addPlaceholderText,
      addClass, sweepList, sweepFrom, applyFilterStyle, decideAction]
  · simp [shutdown, observerStop, clearAllFiltering, processMessages, processList,
      filterMessage, isEnabled, cfgNormal, wlAlice, scheduleDebounce, engine0, bobMsg,
      unameNode, cacheLookup, cacheSet, List.find?, extractUsername, querySelUsername,
      querySelReplyAuthor, querySelHeaderTextUsername, querySelHeaderUsername,
      querySelDesc, findInChildren, findFrom, findWithAncList, findWithAncFrom,
      selectorUsername, hasClassContaining, strContains, containsChars, startsWithChars,
      textContent, textContentList, collectAll, collectFrom, fallbackUsername, sTrim,
      dropLeadingWs, classAttr, applyDisplayMode, removeFilterClasses, removeFirstInList,
      removeFirstFrom, clearChildStyles, clearChildStylesList, hasClassToken,
      applyCollapseMode, addPlaceholderText, addClass, sweepList, sweepFrom,
      applyFilterStyle, decideAction]
  · have h1 : (removeFilterClasses bobMsg).children
        = [Dom.node ["username-3xk"] "bob" ⟨"", "", "", "", ""⟩ [],
           Dom.node ["messageContent-101"] "hi" ⟨"", "", "", "", ""⟩ []] := by
      simp [removeFilterClasses, bobMsg, unameNode, removeFirstInList, removeFirstFrom,
        clearChildStyles, clearChildStylesList, hasClassToken]
    rw [h1]
    simp [domClearedList, domCleared, styleCleared]
  · have h1 : (removeFilterClasses bobMsg).children
        = [Dom.node ["username-3xk"] "bob" ⟨"", "", "", "", ""⟩ [],
           Dom.node ["messageContent-101"] "hi" ⟨"", "", "", "", ""⟩ []] := by
      simp [removeFilterClasses, bobMsg, unameNode, removeFirstInList, removeFirstFrom,
        clearChildStyles, clearChildStylesList, hasClassToken]
    have h2 : recheckList cfgNormal.hardHide
        [Dom.node ["username-3xk"] "bob" ⟨"", "", "", "", ""⟩ [],
         Dom.node ["messageContent-101"] "hi" ⟨"", "", "", "", ""⟩ []]
        = [Dom.node ["username-3xk", "wl-filtered-child"] "bob"
             ⟨"0.2", "", "blur(2px)", "none", "none"⟩ [],
           Dom.node ["messageContent-101", "wl-filtered-child"] "hi"
             ⟨"0.2", "", "blur(2px)", "none", "none"⟩ []] := by
      simp [recheckList, recheckFrom, cfgNormal, sTrim, dropLeadingWs, addClass,
        applyFilterStyle]
    simp only [recheckMessage, h1, h2]
    simp [domClearedList, domCleared, styleCleared]

/-- C4 (amended).  `shutdown` synchronously disconnects the observer and
cancels the debounce timer — and only that: exactly the non-debounce
(re-check) timers pending at shutdown remain pending; the cache is
cleared and all present messages are unfiltered. -/
theorem shutdown_cancels_only_debounce (st : EngineState) (msgs : List MsgElem)
    (h1 : st.isInitialized = true) (h2 : st.observing = true) :
    (shutdown st msgs).1.pendingTimers
      = st.pendingTimers.filter (fun t => !(t.kind == TimerKind.debounce)) ∧
    (shutdown st msgs).1.observing = false ∧
    (shutdown st msgs).1.messageCache = [] ∧
    (shutdown st msgs).2 = clearAllFiltering msgs := by
  simp [shutdown, observerStop, h1, h2]

/-- C4 witness: shutdown on a state holding one debounce and one
re-check timer keeps exactly the re-check timer. -/
theorem shutdown_cancels_only_debounce_witness :
    (shutdown ⟨[], ⟨0, 0, 0⟩,
        [⟨TimerKind.debounce, 50, ""⟩, ⟨TimerKind.recheck, 100, "chat-messages-101"⟩],
        true, true⟩ []).1.pendingTimers = [⟨TimerKind.recheck, 100, "chat-messages-101"⟩] := by
  have h := shutdown_cancels_only_debounce
    ⟨[], ⟨0, 0, 0⟩,
      [⟨TimerKind.debounce, 50, ""⟩, ⟨TimerKind.recheck, 100, "chat-messages-101"⟩],
      true, true⟩ [] rfl rfl
  rw [h.1]
  decide

lemma addEntry_mem (e : List (String × String)) (u : String)
    (p : String × String) (hp : p ∈ e) : p ∈ addEntry e u := by
  simp only [addEntry]
  split
  · exact hp
  · split
    · exact hp
    · exact List.mem_append_left _ hp

lemma addAll_mem (us : List String) :
    ∀ (e : List (String × String)) (p : String × String), p ∈ e → p ∈ addAll e us := by
  induction us with
  | nil => intro e p hp; exact hp
  | cons u us ih => intro e p hp; exact ih (addEntry e u) p (addEntry_mem e u p hp)

lemma addEntry_self_key (e : List (String × String)) (u : String)
    (hval : validateUsername u = true) :
    ∃ p ∈ addEntry e u, p.1 = sLower (normalizeUsername u) := by
  simp only [addEntry]
  rw [hval]
  simp only [Bool.not_true, Bool.false_eq_true, if_false]
  split
  · next hfind =>
    rcases Option.isSome_iff_exists.mp hfind with ⟨q, hq⟩
    refine ⟨q, List.mem_of_find?_eq_some hq, ?_⟩
    have := List.find?_some hq
    simpa using this
  · exact ⟨(sLower (normalizeUsername u), normalizeUsername u),
      List.mem_append_right _ (List.mem_singleton.mpr rfl), rfl⟩

lemma addAll_self_key (us : List String) :
    ∀ (e : List (String × String)) (u : String), u ∈ us → validateUsername u = true →
    ∃ p ∈ addAll e us, p.1 = sLower (normalizeUsername u) := by
  induction us with
  | nil => intro e u hu; exact absurd hu (List.not_mem_nil u)
  | cons v us ih =>
    intro e u hu hval
    rcases List.mem_cons.mp hu with h | h
    · subst h
      rcases addEntry_self_key e u hval with ⟨p, hp, hkey⟩
      exact ⟨p, addAll_mem us (addEntry e u) p hp, hkey⟩
    · exact ih (addEntry e v) u h hval

lemma addEntry_inv (e : List (String × String)) (u : String)
    (hinv : ∀ p ∈ e, p.1 = sLower p.2) : ∀ p ∈ addEntry e u, p.1 = sLower p.2 := by
  simp only [addEntry]
  split
  · exact hinv
  · split
    · exact hinv
    · intro p hp
      rcases List.mem_append.mp hp with h | h
      · exact hinv p h
      · rw [List.mem_singleton.mp h]

lemma addAll_inv (us : List String) :
    ∀ (e : List (String × String)), (∀ p ∈ e, p.1 = sLower p.2) →
    ∀ p ∈ addAll e us, p.1 = sLower p.2 := by
  induction us with
  | nil => intro e hinv; exact hinv
  | cons u us ih => intro e hinv; exact ih (addEntry e u) (addEntry_inv e u hinv)

lemma rebuildLookupCache_eq_keys (e : List (String × String))
    (hinv : ∀ p ∈ e, p.1 = sLower p.2) :
    rebuildLookupCache e = e.map (fun p => p.1) := by
  unfold rebuildLookupCache
  exact List.map_congr_left (fun p hp => (hinv p hp).symm)

lemma addEntry_keys_sub (e : List (String × String)) (u : String) :
    ∀ p ∈ addEntry e u, p ∈ e ∨ p.1 = sLower (normalizeUsername u) := by
  simp only [addEntry]
  split
  · intro p hp; exact Or.inl hp
  · split
    · intro p hp; exact Or.inl hp
    · intro p hp
      rcases List.mem_append.mp hp with h | h
      · exact Or.inl h
      · rw [List.mem_singleton.mp h]
        exact Or.inr rfl

lemma addAll_keys_sub (us : List String) :
    ∀ (e : List (String × String)) (p : String × String), p ∈ addAll e us →
    p ∈ e ∨ ∃ u ∈ us, p.1 = sLower (normalizeUsername u) := by
  induction us with
  | nil => intro e p hp; exact Or.inl hp
  | cons v us ih =>
    intro e p hp
    rcases ih (addEntry e v) p hp with h | ⟨u, hu, hk⟩
    · rcases addEntry_keys_sub e v p h with h2 | h2
      · exact Or.inl h2
      · exact Or.inr ⟨v, List.mem_cons_self v us, h2⟩
    · exact Or.inr ⟨u, List.mem_cons_of_mem v hu, hk⟩

/-- C9.  With the active collection built by a sequence of `addEntry`
calls and the lookup cache rebuilt from it, `isWhitelisted` is
case-insensitive: any query equal to a validly added username up to
letter case after trimming is accepted, and a query whose
trimmed-lowercased form matches no added username is rejected. -/
theorem isWhitelisted_case_insensitive (us : List String) (v : String) :
    (∀ u, u ∈ us → validateUsername u = true →
      sLower (normalizeUsername v) = sLower (normalizeUsername u) →
      isWhitelisted (rebuildLookupCache (addAll [] us)) v = true) ∧
    ((∀ u, u ∈ us → sLower (normalizeUsername u) ≠ sLower (normalizeUsername v)) →
      isWhitelisted (rebuildLookupCache (addAll [] us)) v = false) := by
  have hinv : ∀ p ∈ addAll [] us, p.1 = sLower p.2 :=
    addAll_inv us [] (by intro p hp; cases hp)
  have hkeys := rebuildLookupCache_eq_keys (addAll [] us) hinv
  constructor
  · intro u hu hval heq
    rcases addAll_self_key us [] u hu hval with ⟨p, hp, hkey⟩
    unfold isWhitelisted
    rw [hkeys]
    refine List.elem_iff.mpr ?_
    rw [heq, ← hkey]
    exact List.mem_map_of_mem _ hp
  · intro hnone
    unfold isWhitelisted
    rw [hkeys]
    cases hcontains : ((addAll [] us).map (fun p => p.1)).contains (sLower (normalizeUsername v)) with
    | false => rfl
    | true =>
      exfalso
      have hmem := List.elem_iff.mp hcontains
      rcases List.mem_map.mp hmem with ⟨p, hp, hkey⟩
      rcases addAll_keys_sub us [] p hp with h | ⟨u, hu, hk⟩
      · cases h
      · exact hnone u hu (by rw [← hk, hkey])

/-- C9 witness: after adding "Alice " (with surrounding whitespace), the
all-caps query "ALICE" is whitelisted. -/
theorem isWhitelisted_case_insensitive_witness :
    isWhitelisted (rebuildLookupCache (addAll [] ["Alice "])) "ALICE" = true :=
  (isWhitelisted_case_insensitive ["Alice "] "ALICE").1 "Alice "
    (by simp) (by decide) (by decide)

end DiscordWhitelist
